import Mathlib

/-!
Verification development for the Lirum image-converter core
(main.js, heic-decoder.js, renderer classification logic).

The JavaScript source is shallowly embedded: JS strings become `String`,
nullable values become `Option`, byte buffers become `List Nat` (each entry
a byte value), throwing functions become `Except String`.
-/

set_option maxRecDepth 4096

/-! ## Format registry and normalizer (main.js lines 13-37) -/

/-- Embeds the OUTPUT_FORMATS object of main.js: property lookup by key,
yielding the label and extension list, or none for an absent key. -/
def OUTPUT_FORMATS (k : String) : Option (String × List String) :=
  if k = "jpeg" then some ("JPEG Image", ["jpg", "jpeg"])
  else if k = "png" then some ("PNG Image", ["png"])
  else if k = "webp" then some ("WebP Image", ["webp"])
  else if k = "avif" then some ("AVIF Image", ["avif"])
  else if k = "heic" then some ("HEIC Image", ["heic", "heif"])
  else if k = "gif" then some ("GIF Image", ["gif"])
  else if k = "bmp" then some ("BMP Image", ["bmp"])
  else if k = "tiff" then some ("TIFF Image", ["tif", "tiff"])
  else none

/-- Embeds the JS toLowerCase() call as applied to format tokens and file
names: per-character ASCII lowering. -/
def jsToLower (s : String) : String :=
  String.mk (s.data.map Char.toLower)

/-- Embeds normalizeFormat of main.js.  A JS falsy argument (undefined, null,
empty string) is modelled as `none` or `some ""`; both return null. -/
def normalizeFormat (format : Option String) : Option String :=
  match format with
  | none => none
  | some s =>
    if s = "" then none
    else
      let value := jsToLower s
      if value = "jpg" then some "jpeg"
      else if value = "heif" then some "heic"
      else if value = "tif" then some "tiff"
      else some value

/-- A JavaScript value as it can arrive at normalizeQuality over IPC:
an integral number, a string, undefined or null. -/
inductive JSVal where
  | num (n : Int)
  | str (s : String)
  | undef
  | nullv
deriving DecidableEq

/-- JS ToString coercion as applied by parseInt to its argument. -/
def jsToString (v : JSVal) : String :=
  match v with
  | .num n => toString n
  | .str s => s
  | .undef => "undefined"
  | .nullv => "null"

/-- Whitespace characters stripped by JS parseInt before parsing. -/
def isJsSpace (c : Char) : Bool :=
  c = ' ' || c = '\t' || c = '\n' || c = '\r' || c = '\x0b' || c = '\x0c'

/-- Value of a nonempty string of decimal digits. -/
def decDigitsVal (cs : List Char) : Nat :=
  cs.foldl (fun acc c => acc * 10 + (c.toNat - 48)) 0

/-- Leading decimal-digit run of a character list, as used by parseInt. -/
def leadDigits (cs : List Char) : List Char :=
  cs.takeWhile Char.isDigit

/-- Embeds JS parseInt(s, 10): strip leading whitespace, take an optional
sign, then the longest leading run of decimal digits; no digits means NaN,
modelled as none. -/
def parseIntJs (s : String) : Option Int :=
  let cs := s.data.dropWhile isJsSpace
  match cs with
  | '-' :: rest =>
    if leadDigits rest = [] then none
    else some (-(decDigitsVal (leadDigits rest) : Int))
  | '+' :: rest =>
    if leadDigits rest = [] then none
    else some ((decDigitsVal (leadDigits rest) : Int))
  | rest =>
    if leadDigits rest = [] then none
    else some ((decDigitsVal (leadDigits rest) : Int))

/-- Embeds normalizeQuality of main.js: parseInt, NaN yields null, otherwise
clamp into [1, 100] via Math.min / Math.max. -/
def normalizeQuality (value : JSVal) : Option Int :=
  match parseIntJs (jsToString value) with
  | none => none
  | some parsed => some (min 100 (max 1 parsed))

/-! ## Save-dialog filter construction (main.js lines 57-84) -/

/-- The fixed canonical ordering used by buildSaveFilters. -/
def orderedKeys : List String :=
  ["jpeg", "png", "webp", "avif", "heic", "gif", "bmp", "tiff"]

/-- Embeds buildSaveFilters of main.js: the resolved target format group, if
registered, comes first; then every other registered format in canonical
order; then the umbrella All Images group. -/
def buildSaveFilters (targetFormat : Option String) : List (String × List String) :=
  let formatKey := normalizeFormat targetFormat
  (match formatKey with
   | some k =>
     match OUTPUT_FORMATS k with
     | some f => [f]
     | none => []
   | none => [])
  ++ orderedKeys.filterMap (fun k =>
      match OUTPUT_FORMATS k with
      | none => none
      | some f => if formatKey = some k then none else some f)
  ++ [("All Images",
       orderedKeys.flatMap (fun k => ((OUTPUT_FORMATS k).map Prod.snd).getD []))]

/-- The filter group of one registered format, for the spec-side description. -/
def specGroup (k : String) : List (String × List String) :=
  ((OUTPUT_FORMATS k).map (fun f => [f])).getD []

/-- Modelled from the spec wording of buildOutputFilters (spec section 4.1):
the requested target group first when the token resolves to a registered
format, then the remaining formats in the fixed canonical order, then an
All Images group spanning every known extension. -/
def specSaveFilters (targetFormat : Option String) : List (String × List String) :=
  let allImages : String × List String :=
    ("All Images",
     ["jpg", "jpeg", "png", "webp", "avif", "heic", "heif", "gif", "bmp", "tif", "tiff"])
  match normalizeFormat targetFormat with
  | some k =>
    if (OUTPUT_FORMATS k).isSome then
      specGroup k
        ++ (orderedKeys.filter (fun j => j ≠ k)).flatMap specGroup
        ++ [allImages]
    else orderedKeys.flatMap specGroup ++ [allImages]
  | none => orderedKeys.flatMap specGroup ++ [allImages]

/-! ## BMP binary encoder (main.js lines 86-126)

The RGBA source buffer is modelled as a function from byte index to byte
value; the produced file is a list of bytes.  The imperative fill loop of
encodeBmp writes row 0..height-1 sequentially, each row being width BGR
triples followed by zero padding up to the stride (the allocated buffer is
zero-initialised), so it is embedded as the corresponding concatenation. -/

/-- Row stride of encodeBmp: Math.floor((width * 3 + 3) / 4) * 4. -/
def bmpRowStride (width : Nat) : Nat :=
  (width * 3 + 3) / 4 * 4

/-- Total file size computed by encodeBmp: 14-byte file header, 40-byte
info header, stride-padded pixel data. -/
def bmpFileSize (width height : Nat) : Nat :=
  14 + 40 + bmpRowStride width * height

/-- Little-endian bytes of writeUInt32LE (and of writeInt32LE on a
non-negative in-range value). -/
def u32le (v : Nat) : List Nat :=
  [v % 256, v / 256 % 256, v / 65536 % 256, v / 16777216 % 256]

/-- Little-endian bytes of writeUInt16LE. -/
def u16le (v : Nat) : List Nat :=
  [v % 256, v / 256 % 256]

/-- The 54 header bytes written by encodeBmp before the pixel loop:
ASCII BM, file size, reserved, pixel-data offset, info-header size, width,
height, planes, bits per pixel, compression, image size, x and y resolution
2835, palette and important colors. -/
def bmpHeader (width height : Nat) : List Nat :=
  [66, 77]
    ++ u32le (bmpFileSize width height)
    ++ u32le 0
    ++ u32le (14 + 40)
    ++ u32le 40
    ++ u32le width
    ++ u32le height
    ++ u16le 1
    ++ u16le 24
    ++ u32le 0
    ++ u32le (bmpRowStride width * height)
    ++ u32le 2835
    ++ u32le 2835
    ++ u32le 0
    ++ u32le 0

/-- The inner column loop of encodeBmp: n BGR triples read from pixelData
starting at byte index base, each RGBA texel occupying 4 source bytes.
Buffer element assignment truncates to a byte, hence the mod 256. -/
def bmpPixTriples (pixelData : Nat → Nat) (base : Nat) : Nat → List Nat
  | 0 => []
  | n + 1 =>
    pixelData (base + 2) % 256 :: pixelData (base + 1) % 256 :: pixelData base % 256
      :: bmpPixTriples pixelData (base + 4) n

/-- One output scanline: width BGR triples from source row sourceRow,
then the zero padding bytes up to the row stride. -/
def bmpRow (pixelData : Nat → Nat) (width sourceRow : Nat) : List Nat :=
  bmpPixTriples pixelData (sourceRow * width * 4) width
    ++ List.replicate (bmpRowStride width - width * 3) 0

/-- The outer row loop of encodeBmp: output rows y, y+1, ... (n rows),
output row y reading source row height - 1 - y. -/
def bmpRowsFrom (pixelData : Nat → Nat) (width height y : Nat) : Nat → List Nat
  | 0 => []
  | n + 1 =>
    bmpRow pixelData width (height - 1 - y)
      ++ bmpRowsFrom pixelData width height (y + 1) n

/-- Embeds encodeBmp of main.js. -/
def encodeBmp (pixelData : Nat → Nat) (width height : Nat) : List Nat :=
  bmpHeader width height ++ bmpRowsFrom pixelData width height 0 height

/-- Byte of the produced buffer at an index (out of range reads give 0,
matching a zero-filled Buffer view for in-bounds indices we prove about). -/
def readByte (buf : List Nat) (i : Nat) : Nat :=
  buf.getD i 0

/-- Unsigned little-endian 32-bit read at an offset. -/
def readU32le (buf : List Nat) (off : Nat) : Nat :=
  readByte buf off
    + 256 * readByte buf (off + 1)
    + 65536 * readByte buf (off + 2)
    + 16777216 * readByte buf (off + 3)

/-! ## Data-URL transport (main.js lines 39-49 and 611-614)

parseDataUrl applies the regex data:([^;]+);base64,(.+) anchored at both
ends, then decodes the captured payload with Buffer.from(payload, base64).
Strings are processed as their character lists. -/

/-- The standard base64 alphabet used when the app builds a data URL. -/
def b64Alphabet : List Char :=
  "ABCDEFGHIJKLMNOPQRSTUVWXYZabcdefghijklmnopqrstuvwxyz0123456789+/".data

/-- Character for a 6-bit value. -/
def b64chr (n : Nat) : Char :=
  b64Alphabet.getD n 'A'

/-- Value of one base64 character under the lenient Node decoding table:
standard and url-safe alphabets accepted, everything else (including the
padding sign, whitespace and arbitrary junk) is skipped. -/
def b64val (c : Char) : Option Nat :=
  if 'A' ≤ c ∧ c ≤ 'Z' then some (c.toNat - 65)
  else if 'a' ≤ c ∧ c ≤ 'z' then some (c.toNat - 71)
  else if '0' ≤ c ∧ c ≤ '9' then some (c.toNat + 4)
  else if c = '+' ∨ c = '-' then some 62
  else if c = '/' ∨ c = '_' then some 63
  else none

/-- Standard base64 encoding of a byte list, three bytes to four characters,
with trailing padding, as produced for a data URL payload. -/
def encodeB64 : List Nat → List Char
  | [] => []
  | [a] => [b64chr (a / 4), b64chr (a % 4 * 16), '=', '=']
  | [a, b] => [b64chr (a / 4), b64chr (a % 4 * 16 + b / 16), b64chr (b % 16 * 4), '=']
  | a :: b :: c :: rest =>
    b64chr (a / 4) :: b64chr (a % 4 * 16 + b / 16) :: b64chr (b % 16 * 4 + c / 64)
      :: b64chr (c % 64) :: encodeB64 rest

/-- Bytes recovered from a list of 6-bit values: every full group of four
values yields three bytes, a trailing group of two or three values yields
one or two bytes, a lone trailing value is dropped. -/
def decodeB64Vals : List Nat → List Nat
  | a :: b :: c :: d :: rest =>
    (a * 4 + b / 16) :: (b % 16 * 16 + c / 4) :: (c % 4 * 64 + d) :: decodeB64Vals rest
  | [a, b] => [a * 4 + b / 16]
  | [a, b, c] => [a * 4 + b / 16, b % 16 * 16 + c / 4]
  | _ => []

/-- Embeds Buffer.from(payload, base64): non-alphabet characters and padding
are skipped, the remaining 6-bit values are packed into bytes. -/
def bufferFromBase64 (cs : List Char) : List Nat :=
  decodeB64Vals (cs.filterMap b64val)

/-- Does a character match the regex dot (anything but a line terminator)? -/
def isDotChar (c : Char) : Bool :=
  !(c = '\n' || c = '\r' || c = '\u2028' || c = '\u2029')

/-- Embeds parseDataUrl of main.js on a character list: the regex match
data:([^;]+);base64,(.+) anchored at both ends, the no-match throw, the
dead re-check of an empty payload, then the lenient base64 decode. -/
def parseDataUrlList (cs : List Char) : Except String (List Nat) :=
  match cs with
  | 'd' :: 'a' :: 't' :: 'a' :: ':' :: rest =>
    let mime := rest.takeWhile (fun c => c != ';')
    let after := rest.dropWhile (fun c => c != ';')
    match after with
    | ';' :: 'b' :: 'a' :: 's' :: 'e' :: '6' :: '4' :: ',' :: payload =>
      if mime.isEmpty then .error "Invalid data URL format"
      else if payload.isEmpty || !payload.all isDotChar then
        .error "Invalid data URL format"
      else if payload.length = 0 then .error "Empty image data"
      else .ok (bufferFromBase64 payload)
    | _ => .error "Invalid data URL format"
  | _ => .error "Invalid data URL format"

/-- Embeds parseDataUrl of main.js on a string. -/
def parseDataUrl (s : String) : Except String (List Nat) :=
  parseDataUrlList s.data

/-- A data URL as the app builds one (decode-image handler line 614):
the scheme, the MIME token, the base64 marker and the encoded payload. -/
def toDataUrl (mime : String) (bytes : List Nat) : String :=
  "data:" ++ mime ++ ";base64," ++ String.mk (encodeB64 bytes)

/-! ## Encode dispatcher (main.js lines 128-171)

The sharp pipeline configuration chosen for a target format is reified as
an EncodePlan; the external codec library is an explicit function argument
from plan and input bytes to output bytes, quantified over in theorems. -/

/-- The pipeline configuration encodeOutputBuffer hands to the codec. -/
inductive EncodePlan where
  | bmpPlan
  | jpegPlan (quality : Int)
  | pngPlan
  | webpPlan (quality : Int)
  | avifPlan (quality : Int)
  | heicPlan (quality : Int)
  | gifPlan
  | tiffPlan
deriving DecidableEq

/-- Embeds encodeOutputBuffer of main.js with sharp available: normalize the
format (missing yields a throw), normalize the quality, then run the codec
on the format-specific plan; jpeg, webp, avif and heic default a null
quality to 90, while png, gif and tiff take no quality at all. -/
def encodeOutputBuffer (codec : EncodePlan → List Nat → List Nat)
    (inputBuffer : List Nat) (targetFormat : Option String)
    (qualityValue : JSVal) : Except String (List Nat) :=
  match normalizeFormat targetFormat with
  | none => .error "Missing output format"
  | some format =>
    let quality := normalizeQuality qualityValue
    if format = "bmp" then .ok (codec .bmpPlan inputBuffer)
    else if format = "jpeg" then .ok (codec (.jpegPlan (quality.getD 90)) inputBuffer)
    else if format = "png" then .ok (codec .pngPlan inputBuffer)
    else if format = "webp" then .ok (codec (.webpPlan (quality.getD 90)) inputBuffer)
    else if format = "avif" then .ok (codec (.avifPlan (quality.getD 90)) inputBuffer)
    else if format = "heic" then .ok (codec (.heicPlan (quality.getD 90)) inputBuffer)
    else if format = "gif" then .ok (codec .gifPlan inputBuffer)
    else if format = "tiff" then .ok (codec .tiffPlan inputBuffer)
    else .error ("Unsupported output format: " ++ format)

/-! ## IPC handlers around the pipeline (main.js lines 583-706) -/

/-- The three mutually exclusive input variants of the decode-image handler. -/
inductive DecodeInput where
  | file (contents : Option (List Nat))
  | arrayBuffer (bytes : List Nat)
  | dataUrl (s : String)
  | missing

/-- Embeds the input-acquisition phase of the decode-image handler
(main.js lines 588-601): the buffer an ok result carries is handed directly
to the sharp decoder; the handler performs no size check on it. -/
def decodeImageInputBuffer (input : DecodeInput) : Except String (List Nat) :=
  match input with
  | .file none => .error "Failed to read file"
  | .file (some bytes) => .ok bytes
  | .arrayBuffer bytes => .ok bytes
  | .dataUrl s => parseDataUrl s
  | .missing => .error "No image data provided for decoding"

/-- The 100 MiB bound of the save-image handler (main.js line 664). -/
def MAX_SIZE : Nat := 100 * 1024 * 1024

/-- Embeds the encode phase of the save-image handler (main.js lines
661-671): after parsing the data URL into inputBuffer, reject oversized
buffers, then either re-encode through encodeOutputBuffer or pass the
original bytes through when no format was resolved. -/
def saveImageEncode (codec : EncodePlan → List Nat → List Nat)
    (inputBuffer : List Nat) (format : Option String)
    (quality : JSVal) : Except String (List Nat) :=
  if inputBuffer.length > MAX_SIZE then .error "Image too large"
  else
    match format with
    | some f => encodeOutputBuffer codec inputBuffer (some f) quality
    | none => .ok inputBuffer

/-! ## Source classification (renderer handleFile, isTiffFile; heic-decoder
isHeicFile, isAvifFile) -/

/-- Decode strategy chosen for an input file. -/
inductive SourceKind where
  | heic
  | avif
  | tiff
  | nativeRaster
  | unsupported
deriving DecidableEq

/-- An input file as the classifier sees it: a possibly absent name and a
possibly absent declared MIME type. -/
structure JsFile where
  name : Option String
  declaredType : Option String

/-- JS truthiness of an optional string: undefined, null and the empty
string are falsy. -/
def truthyStr (o : Option String) : Option String :=
  match o with
  | none => none
  | some s => if s = "" then none else some s

/-- Character list of a string lowered per toLowerCase(). -/
def jsLowerChars (s : String) : List Char :=
  s.data.map Char.toLower

/-- Embeds name.endsWith(suffix) on character lists. -/
def listEndsWith (suffix : List Char) (l : List Char) : Bool :=
  suffix.isSuffixOf l

/-- Embeds name.startsWith(p) on character lists. -/
def listStartsWith (p : List Char) (l : List Char) : Bool :=
  p.isPrefixOf l

/-- Does the needle occur contiguously inside the haystack?  Used to state
that one error message references (contains) another. -/
def listContains (needle hay : List Char) : Bool :=
  (List.range (hay.length + 1)).any (fun i => needle.isPrefixOf (hay.drop i))

/-- Embeds HeicDecoder.isHeicFile: needs a truthy name, then matches the
lowered declared type against image/heic or image/heif or the lowered name
suffix against .heic or .heif. -/
def isHeicFile (f : JsFile) : Bool :=
  match truthyStr f.name with
  | none => false
  | some n =>
    let name := jsLowerChars n
    let ty := jsLowerChars (f.declaredType.getD "")
    ty == "image/heic".data || ty == "image/heif".data
      || listEndsWith ".heic".data name || listEndsWith ".heif".data name

/-- Embeds HeicDecoder.isAvifFile: needs a truthy name, then matches the
lowered declared type against image/avif or the lowered name suffix
against .avif. -/
def isAvifFile (f : JsFile) : Bool :=
  match truthyStr f.name with
  | none => false
  | some n =>
    let name := jsLowerChars n
    let ty := jsLowerChars (f.declaredType.getD "")
    ty == "image/avif".data || listEndsWith ".avif".data name

/-- Embeds isTiffFile of the renderer: needs a truthy name, then matches
the lowered declared type against image/tiff or the lowered name suffix
against .tif or .tiff. -/
def isTiffFile (f : JsFile) : Bool :=
  match truthyStr f.name with
  | none => false
  | some n =>
    let name := jsLowerChars n
    let ty := jsLowerChars (f.declaredType.getD "")
    ty == "image/tiff".data || listEndsWith ".tif".data name
      || listEndsWith ".tiff".data name

/-- The standard raster extensions checked by handleFile. -/
def standardExtensions : List (List Char) :=
  [".jpg".data, ".jpeg".data, ".png".data, ".webp".data,
   ".gif".data, ".bmp".data, ".tif".data, ".tiff".data]

/-- Embeds the hasStandardExtension check of handleFile: a truthy name
whose lowered form ends in one of the standard raster extensions. -/
def hasStandardExtension (f : JsFile) : Bool :=
  match truthyStr f.name with
  | none => false
  | some n => standardExtensions.any (fun e => listEndsWith e (jsLowerChars n))

/-- Embeds the isStandardImage check of handleFile: a truthy declared type
starting with image/ (checked case-sensitively, as in the source), or a
standard raster extension. -/
def isStandardImageFile (f : JsFile) : Bool :=
  (match truthyStr f.declaredType with
   | none => false
   | some t => listStartsWith "image/".data t.data) || hasStandardExtension f

/-- Embeds the classification logic of handleFile in the renderer: the
unsupported early return fires when no detector matches, then dispatch
prefers the WASM-decoded kinds (HEIC before AVIF), then TIFF, and falls
through to the native raster path. -/
def handleFileClassification (f : JsFile) : SourceKind :=
  let isHeic := isHeicFile f
  let isAvif := isAvifFile f
  let isTiff := isTiffFile f
  let isWasmDecoded := isHeic || isAvif
  let isStandardImage := isStandardImageFile f
  if !isStandardImage && !isWasmDecoded && !isTiff then .unsupported
  else if isWasmDecoded then (if isHeic then .heic else .avif)
  else if isTiff then .tiff
  else .nativeRaster

/-! ## HEIC/AVIF decode with native AVIF fallback (heic-decoder.js decode,
lines 243-266)

The two external decodes (the libheif WASM path and the one-shot native
path of decodeAvifNatively) are passed in as their outcomes; the second
component of the result counts how many native fallback decodes ran. -/

/-- Embeds the control flow of HeicDecoder.decode: on WASM failure, a file
recognized by isAvifFile gets exactly one native fallback attempt, whose
own outcome (not the WASM cause) becomes the reported result; any other
file propagates the WASM error with no fallback. -/
def heicDecodeFlow {α : Type} (f : JsFile) (wasmResult : Except String α)
    (nativeResult : Except String α) : Except String α × Nat :=
  match wasmResult with
  | .ok c => (.ok c, 0)
  | .error e =>
    if isAvifFile f then
      match nativeResult with
      | .ok c => (.ok c, 1)
      | .error nativeErr => (.error nativeErr, 1)
    else (.error e, 0)

/-! ## Proofs -/

example : buildSaveFilters (some "PNG") = specSaveFilters (some "PNG") := by decide
example : buildSaveFilters (some "weird") = specSaveFilters (some "weird") := by decide
example : buildSaveFilters none = specSaveFilters none := by decide
example : (buildSaveFilters (some "tif")).length = 9 := by decide

example :
    encodeBmp (fun i => i) 1 2 =
      ([66, 77] ++ u32le 62 ++ [0,0,0,0] ++ [54,0,0,0] ++ [40,0,0,0]
        ++ [1,0,0,0] ++ [2,0,0,0] ++ [1,0] ++ [24,0] ++ [0,0,0,0] ++ [8,0,0,0]
        ++ u32le 2835 ++ u32le 2835 ++ [0,0,0,0] ++ [0,0,0,0]
        ++ [6, 5, 4, 0] ++ [2, 1, 0, 0]) := by decide

lemma bmpHeader_length (w h : Nat) : (bmpHeader w h).length = 54 := by
  simp [bmpHeader, u32le, u16le]

lemma bmpPixTriples_length (p : Nat → Nat) (base n : Nat) :
    (bmpPixTriples p base n).length = 3 * n := by
  induction n generalizing base with
  | zero => rfl
  | succ n ih => simp [bmpPixTriples, ih]; omega

lemma mul3_le_bmpRowStride (w : Nat) : w * 3 ≤ bmpRowStride w := by
  unfold bmpRowStride; omega

lemma bmpRow_length (p : Nat → Nat) (w sr : Nat) :
    (bmpRow p w sr).length = bmpRowStride w := by
  have h := mul3_le_bmpRowStride w
  simp [bmpRow, bmpPixTriples_length]
  omega

lemma bmpRowsFrom_length (p : Nat → Nat) (w h y n : Nat) :
    (bmpRowsFrom p w h y n).length = n * bmpRowStride w := by
  induction n generalizing y with
  | zero => simp [bmpRowsFrom]
  | succ n ih => simp [bmpRowsFrom, bmpRow_length, ih]; ring

lemma encodeBmp_length (p : Nat → Nat) (w h : Nat) :
    (encodeBmp p w h).length = bmpFileSize w h := by
  simp [encodeBmp, bmpFileSize, bmpRowsFrom_length, bmpHeader_length]
  ring

lemma bmpPixTriples_getD (p : Nat → Nat) (base n x c : Nat)
    (hx : x < n) (hc : c < 3) :
    (bmpPixTriples p base n).getD (3 * x + c) 0 = p (base + 4 * x + (2 - c)) % 256 := by
  induction n generalizing base x with
  | zero => omega
  | succ n ih =>
    cases x with
    | zero =>
      interval_cases c <;> simp [bmpPixTriples]
    | succ x =>
      have harith : 3 * (x + 1) + c = (3 * x + c) + 1 + 1 + 1 := by omega
      rw [harith]
      simp only [bmpPixTriples, List.getD_eq_getElem?_getD, List.getElem?_cons_succ]
      rw [← List.getD_eq_getElem?_getD, ih (base + 4) x (by omega)]
      have harith2 : base + 4 + 4 * x + (2 - c) = base + 4 * (x + 1) + (2 - c) := by
        omega
      rw [harith2]

lemma bmpRow_getD_pix (p : Nat → Nat) (w sr x c : Nat)
    (hx : x < w) (hc : c < 3) :
    (bmpRow p w sr).getD (3 * x + c) 0 = p (sr * w * 4 + 4 * x + (2 - c)) % 256 := by
  unfold bmpRow
  rw [List.getD_eq_getElem?_getD, List.getElem?_append_left
    (by rw [bmpPixTriples_length]; omega), ← List.getD_eq_getElem?_getD]
  exact bmpPixTriples_getD p _ w x c hx hc

lemma bmpRow_getD_pad (p : Nat → Nat) (w sr j : Nat)
    (hj : w * 3 ≤ j) (hj2 : j < bmpRowStride w) :
    (bmpRow p w sr).getD j 0 = 0 := by
  unfold bmpRow
  rw [List.getD_eq_getElem?_getD, List.getElem?_append_right
    (by rw [bmpPixTriples_length]; omega)]
  rw [bmpPixTriples_length, List.getElem?_replicate]
  rw [if_pos (by omega)]
  rfl

lemma bmpRowsFrom_getD (p : Nat → Nat) (w h y n d j : Nat)
    (hd : d < n) (hj : j < bmpRowStride w) :
    (bmpRowsFrom p w h y n).getD (d * bmpRowStride w + j) 0 =
      (bmpRow p w (h - 1 - (y + d))).getD j 0 := by
  induction n generalizing y d with
  | zero => omega
  | succ n ih =>
    cases d with
    | zero =>
      simp only [bmpRowsFrom, Nat.zero_mul, Nat.zero_add, Nat.add_zero]
      rw [List.getD_eq_getElem?_getD, List.getElem?_append_left
        (by rw [bmpRow_length]; omega), ← List.getD_eq_getElem?_getD]
    | succ d =>
      have harith : (d + 1) * bmpRowStride w + j =
          bmpRowStride w + (d * bmpRowStride w + j) := by ring
      rw [harith]
      unfold bmpRowsFrom
      rw [List.getD_eq_getElem?_getD, List.getElem?_append_right
        (by rw [bmpRow_length]; omega), bmpRow_length]
      rw [Nat.add_sub_cancel_left (n := bmpRowStride w), ← List.getD_eq_getElem?_getD]
      rw [ih (y + 1) d (by omega)]
      have harith2 : h - 1 - (y + 1 + d) = h - 1 - (y + (d + 1)) := by omega
      rw [harith2]

lemma encodeBmp_getD_body (p : Nat → Nat) (w h d j : Nat)
    (hd : d < h) (hj : j < bmpRowStride w) :
    (encodeBmp p w h).getD (54 + (d * bmpRowStride w + j)) 0 =
      (bmpRow p w (h - 1 - d)).getD j 0 := by
  unfold encodeBmp
  rw [List.getD_eq_getElem?_getD, List.getElem?_append_right
    (by rw [bmpHeader_length]; omega), bmpHeader_length]
  have harith : 54 + (d * bmpRowStride w + j) - 54 = d * bmpRowStride w + j := by omega
  rw [harith, ← List.getD_eq_getElem?_getD, bmpRowsFrom_getD p w h 0 h d j hd hj]
  have harith2 : h - 1 - (0 + d) = h - 1 - d := by omega
  rw [harith2]

lemma encodeBmp_getD_header (p : Nat → Nat) (w h i : Nat) (hi : i < 54) :
    (encodeBmp p w h).getD i 0 = (bmpHeader w h).getD i 0 := by
  unfold encodeBmp
  rw [List.getD_eq_getElem?_getD, List.getElem?_append_left
    (by rw [bmpHeader_length]; omega), ← List.getD_eq_getElem?_getD]

lemma bmpHeader_getD_zero (w h : Nat) : (bmpHeader w h).getD 0 0 = 66 := by
  simp [bmpHeader, u32le, u16le, List.getD_eq_getElem?_getD]

lemma bmpHeader_getD_one (w h : Nat) : (bmpHeader w h).getD 1 0 = 77 := by
  simp [bmpHeader, u32le, u16le, List.getD_eq_getElem?_getD]

lemma bmpHeader_getD_size (w h : Nat) :
    (bmpHeader w h).getD 2 0 = bmpFileSize w h % 256
    ∧ (bmpHeader w h).getD 3 0 = bmpFileSize w h / 256 % 256
    ∧ (bmpHeader w h).getD 4 0 = bmpFileSize w h / 65536 % 256
    ∧ (bmpHeader w h).getD 5 0 = bmpFileSize w h / 16777216 % 256 := by
  refine ⟨?_, ?_, ?_, ?_⟩ <;> simp [bmpHeader, u32le, u16le, List.getD_eq_getElem?_getD]

lemma bmpHeader_getD_width (w h : Nat) :
    (bmpHeader w h).getD 18 0 = w % 256
    ∧ (bmpHeader w h).getD 19 0 = w / 256 % 256
    ∧ (bmpHeader w h).getD 20 0 = w / 65536 % 256
    ∧ (bmpHeader w h).getD 21 0 = w / 16777216 % 256 := by
  refine ⟨?_, ?_, ?_, ?_⟩ <;> simp [bmpHeader, u32le, u16le, List.getD_eq_getElem?_getD]

lemma bmpHeader_getD_height (w h : Nat) :
    (bmpHeader w h).getD 22 0 = h % 256
    ∧ (bmpHeader w h).getD 23 0 = h / 256 % 256
    ∧ (bmpHeader w h).getD 24 0 = h / 65536 % 256
    ∧ (bmpHeader w h).getD 25 0 = h / 16777216 % 256 := by
  refine ⟨?_, ?_, ?_, ?_⟩ <;> simp [bmpHeader, u32le, u16le, List.getD_eq_getElem?_getD]

lemma readU32le_bytes (v : Nat) (hv : v < 4294967296) :
    v % 256 + 256 * (v / 256 % 256) + 65536 * (v / 65536 % 256)
      + 16777216 * (v / 16777216 % 256) = v := by
  omega

/-- C1: for a w by h RGBA buffer (w, h positive, file size representable in
32 bits, source entries bytes), encodeBmp yields exactly
14 + 40 + ceil(w*3/4)*4*h bytes; bytes 0 and 1 are ASCII B and M; the
little-endian 32-bit value at offset 2 is the total length; the values at
offsets 18 and 22 are w and h, positive as signed 32-bit values; each
output row y holds source row h-1-y as B, G, R triples with the alpha
byte dropped; and all stride padding bytes are zero. -/
theorem C1_encodeBmp_structure (p : Nat → Nat) (w h : Nat)
    (hw : 0 < w) (hh : 0 < h)
    (hfs : bmpFileSize w h < 4294967296)
    (hp : ∀ i, p i < 256) :
    (encodeBmp p w h).length = 14 + 40 + (w * 3 + 3) / 4 * 4 * h
    ∧ readByte (encodeBmp p w h) 0 = 66
    ∧ readByte (encodeBmp p w h) 1 = 77
    ∧ readU32le (encodeBmp p w h) 2 = (encodeBmp p w h).length
    ∧ readU32le (encodeBmp p w h) 18 = w ∧ w < 2147483648
    ∧ readU32le (encodeBmp p w h) 22 = h ∧ h < 2147483648
    ∧ (∀ y x, y < h → x < w →
        readByte (encodeBmp p w h) (54 + y * bmpRowStride w + 3 * x) =
          p (((h - 1 - y) * w + x) * 4 + 2)
        ∧ readByte (encodeBmp p w h) (54 + y * bmpRowStride w + (3 * x + 1)) =
          p (((h - 1 - y) * w + x) * 4 + 1)
        ∧ readByte (encodeBmp p w h) (54 + y * bmpRowStride w + (3 * x + 2)) =
          p (((h - 1 - y) * w + x) * 4))
    ∧ (∀ y j, y < h → w * 3 ≤ j → j < bmpRowStride w →
        readByte (encodeBmp p w h) (54 + y * bmpRowStride w + j) = 0) := by
  have hlen := encodeBmp_length p w h
  have hsw := mul3_le_bmpRowStride w
  have hstride4 : 4 ≤ bmpRowStride w := by unfold bmpRowStride; omega
  have hsh : bmpRowStride w ≤ bmpRowStride w * h := Nat.le_mul_of_pos_right _ hh
  have hw3 : w * 3 ≤ bmpRowStride w * h := le_trans hsw hsh
  have h4h : 4 * h ≤ bmpRowStride w * h := Nat.mul_le_mul_right h hstride4
  have hwlt : w < 2147483648 := by unfold bmpFileSize at hfs; omega
  have hhlt : h < 2147483648 := by unfold bmpFileSize at hfs; omega
  have hwmod : w < 4294967296 := by omega
  have hhmod : h < 4294967296 := by omega
  have hdr2 := bmpHeader_getD_size w h
  have hdr18 := bmpHeader_getD_width w h
  have hdr22 := bmpHeader_getD_height w h
  refine ⟨?_, ?_, ?_, ?_, ?_, hwlt, ?_, hhlt, ?_, ?_⟩
  · rw [hlen]; simp [bmpFileSize, bmpRowStride]
  · rw [readByte, encodeBmp_getD_header p w h 0 (by omega), bmpHeader_getD_zero]
  · rw [readByte, encodeBmp_getD_header p w h 1 (by omega), bmpHeader_getD_one]
  · show readByte _ 2 + 256 * readByte _ (2 + 1) + 65536 * readByte _ (2 + 2)
        + 16777216 * readByte _ (2 + 3) = _
    norm_num only
    rw [readByte, readByte, readByte, readByte,
      encodeBmp_getD_header p w h 2 (by omega), encodeBmp_getD_header p w h 3 (by omega),
      encodeBmp_getD_header p w h 4 (by omega), encodeBmp_getD_header p w h 5 (by omega),
      hdr2.1, hdr2.2.1, hdr2.2.2.1, hdr2.2.2.2, hlen]
    exact readU32le_bytes _ hfs
  · show readByte _ 18 + 256 * readByte _ (18 + 1) + 65536 * readByte _ (18 + 2)
        + 16777216 * readByte _ (18 + 3) = _
    norm_num only
    rw [readByte, readByte, readByte, readByte,
      encodeBmp_getD_header p w h 18 (by omega), encodeBmp_getD_header p w h 19 (by omega),
      encodeBmp_getD_header p w h 20 (by omega), encodeBmp_getD_header p w h 21 (by omega),
      hdr18.1, hdr18.2.1, hdr18.2.2.1, hdr18.2.2.2]
    exact readU32le_bytes _ hwmod
  · show readByte _ 22 + 256 * readByte _ (22 + 1) + 65536 * readByte _ (22 + 2)
        + 16777216 * readByte _ (22 + 3) = _
    norm_num only
    rw [readByte, readByte, readByte, readByte,
      encodeBmp_getD_header p w h 22 (by omega), encodeBmp_getD_header p w h 23 (by omega),
      encodeBmp_getD_header p w h 24 (by omega), encodeBmp_getD_header p w h 25 (by omega),
      hdr22.1, hdr22.2.1, hdr22.2.2.1, hdr22.2.2.2]
    exact readU32le_bytes _ hhmod
  · intro y x hy hx
    refine ⟨?_, ?_, ?_⟩
    · have hidx : 54 + y * bmpRowStride w + 3 * x =
          54 + (y * bmpRowStride w + (3 * x + 0)) := by omega
      rw [readByte, hidx, encodeBmp_getD_body p w h y (3 * x + 0) hy (by omega),
        bmpRow_getD_pix p w _ x 0 hx (by omega)]
      have harg : (h - 1 - y) * w * 4 + 4 * x + (2 - 0) =
          ((h - 1 - y) * w + x) * 4 + 2 := by ring_nf
      rw [harg]
      exact Nat.mod_eq_of_lt (hp _)
    · have hidx : 54 + y * bmpRowStride w + (3 * x + 1) =
          54 + (y * bmpRowStride w + (3 * x + 1)) := by omega
      rw [readByte, hidx, encodeBmp_getD_body p w h y (3 * x + 1) hy (by omega),
        bmpRow_getD_pix p w _ x 1 hx (by omega)]
      have harg : (h - 1 - y) * w * 4 + 4 * x + (2 - 1) =
          ((h - 1 - y) * w + x) * 4 + 1 := by
        have : (2 : Nat) - 1 = 1 := rfl
        rw [this]; ring
      rw [harg]
      exact Nat.mod_eq_of_lt (hp _)
    · have hidx : 54 + y * bmpRowStride w + (3 * x + 2) =
          54 + (y * bmpRowStride w + (3 * x + 2)) := by omega
      rw [readByte, hidx, encodeBmp_getD_body p w h y (3 * x + 2) hy (by omega),
        bmpRow_getD_pix p w _ x 2 hx (by omega)]
      have harg : (h - 1 - y) * w * 4 + 4 * x + (2 - 2) =
          ((h - 1 - y) * w + x) * 4 := by
        have : (2 : Nat) - 2 = 0 := rfl
        rw [this]; ring
      rw [harg]
      exact Nat.mod_eq_of_lt (hp _)
  · intro y j hy hj1 hj2
    have hidx : 54 + y * bmpRowStride w + j = 54 + (y * bmpRowStride w + j) := by
      omega
    rw [readByte, hidx, encodeBmp_getD_body p w h y j hy hj2,
      bmpRow_getD_pad p w _ j hj1 hj2]

/-- Witness for C1: a concrete 2 by 2 all-zero RGBA buffer satisfies the
hypotheses and the conclusion. -/
theorem C1_encodeBmp_structure_witness :
    (encodeBmp (fun _ => 0) 2 2).length = 14 + 40 + (2 * 3 + 3) / 4 * 4 * 2
    ∧ readU32le (encodeBmp (fun _ => 0) 2 2) 18 = 2 :=
  ⟨(C1_encodeBmp_structure (fun _ => 0) 2 2 (by decide) (by decide) (by decide)
      (fun _ => (by decide : (0 : Nat) < 256))).1,
   (C1_encodeBmp_structure (fun _ => 0) 2 2 (by decide) (by decide) (by decide)
      (fun _ => (by decide : (0 : Nat) < 256))).2.2.2.2.1⟩

lemma charToNat_ofNat_small (m : Nat) (hm : m < 55296) : (Char.ofNat m).toNat = m := by
  unfold Char.ofNat
  rw [dif_pos (Or.inl (by omega : m < 55296))]
  simp [Char.ofNatAux, Char.toNat, UInt32.toNat]

lemma charToLower_toLower (c : Char) : c.toLower.toLower = c.toLower := by
  unfold Char.toLower
  by_cases h : c.toNat ≥ 65 ∧ c.toNat ≤ 90
  · rw [if_pos h]
    have hv : (Char.ofNat (c.toNat + 32)).toNat = c.toNat + 32 :=
      charToNat_ofNat_small _ (by omega)
    rw [if_neg (by rw [hv]; omega)]
  · rw [if_neg h, if_neg h]

lemma jsToLower_idem (s : String) : jsToLower (jsToLower s) = jsToLower s := by
  unfold jsToLower
  rw [List.map_map]
  exact congrArg String.mk (List.map_congr_left (fun c _ => charToLower_toLower c))

lemma jsToLower_eq_empty_iff (s : String) : jsToLower s = "" ↔ s = "" := by
  unfold jsToLower
  constructor
  · intro hmk
    have hdata : (String.mk (s.data.map Char.toLower)).data = "".data :=
      congrArg String.data hmk
    simp at hdata
    cases s
    simp_all
  · intro hs
    rw [hs]
    rfl

lemma normalizeFormat_none_iff (s : String) :
    normalizeFormat (some s) = none ↔ s = "" := by
  unfold normalizeFormat
  dsimp only
  split_ifs <;> simp_all

/-- C2 counterexample: the unrecognized non-empty token xyz is returned
lowercased as-is, not mapped to null as the claim states. -/
theorem C2_normalizeFormat_counterexample :
    normalizeFormat (some "xyz") = some "xyz"
    ∧ ¬ normalizeFormat (some "xyz") = none := by
  refine ⟨by decide, ?_⟩
  intro h
  simp [normalizeFormat, jsToLower] at h

/-- C2 amended: normalizeFormat is case-insensitive and maps the aliases
jpg to jpeg, heif to heic and tif to tiff; null, absent or empty input
yields null; every other unrecognized non-empty token is returned
lowercased rather than mapped to null. -/
theorem C2_normalizeFormat_amended :
    normalizeFormat none = none
    ∧ normalizeFormat (some "") = none
    ∧ (∀ s, normalizeFormat (some s) = none ↔ s = "")
    ∧ normalizeFormat (some "JPG") = some "jpeg"
    ∧ normalizeFormat (some "jPg") = some "jpeg"
    ∧ normalizeFormat (some "HEIF") = some "heic"
    ∧ normalizeFormat (some "heif") = some "heic"
    ∧ normalizeFormat (some "TIF") = some "tiff"
    ∧ normalizeFormat (some "tif") = some "tiff"
    ∧ normalizeFormat (some "WebP") = some "webp"
    ∧ (∀ s, normalizeFormat (some s) = normalizeFormat (some (jsToLower s))) := by
  refine ⟨rfl, rfl, normalizeFormat_none_iff, by decide, by decide, by decide,
    by decide, by decide, by decide, by decide, ?_⟩
  intro s
  by_cases hs : s = ""
  · rw [hs]
    rfl
  · have hls : ¬ jsToLower s = "" := fun h => hs ((jsToLower_eq_empty_iff s).mp h)
    unfold normalizeFormat
    dsimp only
    rw [if_neg hs, if_neg hls, jsToLower_idem]

/-- C8: normalizeQuality parses its input as an integer, yields null exactly
when the parse yields NaN, and otherwise clamps the parsed value into
[1, 100]; in particular 150 clamps to 100, 0 clamps to 1 and the string
abc yields null. -/
theorem C8_normalizeQuality_clamp :
    normalizeQuality (.num 150) = some 100
    ∧ normalizeQuality (.num 0) = some 1
    ∧ normalizeQuality (.str "abc") = none
    ∧ (∀ v, normalizeQuality v =
        (parseIntJs (jsToString v)).map (fun n => min 100 (max 1 n)))
    ∧ (∀ v, normalizeQuality v = none ↔ parseIntJs (jsToString v) = none) := by
  refine ⟨by decide, by decide, by decide, ?_, ?_⟩
  · intro v
    unfold normalizeQuality
    cases parseIntJs (jsToString v) <;> rfl
  · intro v
    unfold normalizeQuality
    cases parseIntJs (jsToString v) <;> simp

/-- C7: for the lossless targets png, gif and tiff the encode result is the
same function of the input for any two quality values, whatever the codec
library computes from the chosen plan. -/
theorem C7_lossless_ignore_quality :
    ∀ (codec : EncodePlan → List Nat → List Nat) (input : List Nat) (q1 q2 : JSVal),
      encodeOutputBuffer codec input (some "png") q1 =
        encodeOutputBuffer codec input (some "png") q2
      ∧ encodeOutputBuffer codec input (some "gif") q1 =
        encodeOutputBuffer codec input (some "gif") q2
      ∧ encodeOutputBuffer codec input (some "tiff") q1 =
        encodeOutputBuffer codec input (some "tiff") q2 :=
  fun _ _ _ _ => ⟨rfl, rfl, rfl⟩

lemma buildSaveFilters_eq_specSaveFilters (t : Option String) :
    buildSaveFilters t = specSaveFilters t := by
  unfold buildSaveFilters specSaveFilters
  generalize normalizeFormat t = fk
  match fk with
  | none => decide
  | some v =>
    by_cases h1 : v = "jpeg"
    · subst h1; decide
    by_cases h2 : v = "png"
    · subst h2; decide
    by_cases h3 : v = "webp"
    · subst h3; decide
    by_cases h4 : v = "avif"
    · subst h4; decide
    by_cases h5 : v = "heic"
    · subst h5; decide
    by_cases h6 : v = "gif"
    · subst h6; decide
    by_cases h7 : v = "bmp"
    · subst h7; decide
    by_cases h8 : v = "tiff"
    · subst h8; decide
    simp [OUTPUT_FORMATS, orderedKeys, specGroup, h1, h2, h3, h4, h5, h6, h7, h8]

/-- C5: buildSaveFilters emits the resolved target format group first when
the token resolves to a registered format, then all other registered
formats in the fixed canonical order without repeating the target, then an
All Images group spanning every known extension, exactly as the spec-side
description states. -/
theorem C5_buildSaveFilters_order :
    ∀ t, buildSaveFilters t = specSaveFilters t :=
  buildSaveFilters_eq_specSaveFilters

/-- C10: for every input token the filter list has exactly 9 groups and
ends with the All Images group carrying all 11 known extensions in
registry order. -/
theorem C10_buildSaveFilters_invariant :
    ∀ t, (buildSaveFilters t).length = 9
    ∧ (buildSaveFilters t).getLast? =
        some ("All Images",
          ["jpg", "jpeg", "png", "webp", "avif", "heic", "heif",
           "gif", "bmp", "tif", "tiff"]) := by
  intro t
  rw [buildSaveFilters_eq_specSaveFilters]
  unfold specSaveFilters
  generalize normalizeFormat t = fk
  match fk with
  | none => decide
  | some v =>
    by_cases h1 : v = "jpeg"
    · subst h1; decide
    by_cases h2 : v = "png"
    · subst h2; decide
    by_cases h3 : v = "webp"
    · subst h3; decide
    by_cases h4 : v = "avif"
    · subst h4; decide
    by_cases h5 : v = "heic"
    · subst h5; decide
    by_cases h6 : v = "gif"
    · subst h6; decide
    by_cases h7 : v = "bmp"
    · subst h7; decide
    by_cases h8 : v = "tiff"
    · subst h8; decide
    simp [OUTPUT_FORMATS, orderedKeys, specGroup, h1, h2, h3, h4, h5, h6, h7, h8]

/-- C3 counterexample: a buffer one byte over the 100 MiB bound flows
through the decode-image input phase to the decoder with no size
rejection, contradicting the claim that the decode path rejects it. -/
theorem C3_decode_no_size_check_counterexample :
    decodeImageInputBuffer (.arrayBuffer (List.replicate (MAX_SIZE + 1) 0)) =
      .ok (List.replicate (MAX_SIZE + 1) 0)
    ∧ (List.replicate (MAX_SIZE + 1) 0).length > MAX_SIZE :=
  ⟨rfl, by simp⟩

/-- C3 amended: the save path rejects any input over 100 MiB with a
size-exceeded error before any encoding, but the decode-image path applies
no size check and hands every acquired buffer to the decoder. -/
theorem C3_size_bound_amended :
    (∀ (codec : EncodePlan → List Nat → List Nat) (b : List Nat)
       (fmt : Option String) (q : JSVal), b.length > MAX_SIZE →
        saveImageEncode codec b fmt q = .error "Image too large")
    ∧ (∀ b : List Nat, decodeImageInputBuffer (.arrayBuffer b) = .ok b) := by
  constructor
  · intro codec b fmt q hb
    unfold saveImageEncode
    rw [if_pos hb]
  · intro b
    rfl

/-- Witness for C3 amended: the concrete 100 MiB + 1 buffer is rejected by
the save path. -/
theorem C3_size_bound_amended_witness :
    (List.replicate (MAX_SIZE + 1) 0).length > MAX_SIZE
    ∧ saveImageEncode (fun _ b => b) (List.replicate (MAX_SIZE + 1) 0) none .undef =
        .error "Image too large" := by
  have hlen : (List.replicate (MAX_SIZE + 1) 0).length > MAX_SIZE := by simp
  exact ⟨hlen, C3_size_bound_amended.1 (fun _ b => b) _ none .undef hlen⟩

/-- C4 counterexample: for an AVIF file where both decodes fail, the
reported error is exactly the native fallback cause; the WASM cause is not
part of it, contradicting the claim that the error references both. -/
theorem C4_avif_fallback_counterexample :
    heicDecodeFlow (α := Nat) ⟨some "x.avif", none⟩
        (.error "wasm cause") (.error "native cause") =
      (.error "native cause", 1)
    ∧ listContains "wasm cause".data "native cause".data = false := by
  exact ⟨rfl, by decide⟩

/-- C4 amended: a successful WASM decode never triggers the fallback; when
the WASM decode fails, exactly one native fallback runs when the file is
recognized by isAvifFile (declared type image/avif or name suffix .avif)
and none otherwise, and on double failure the reported error is the native
fallback cause alone. -/
theorem C4_avif_fallback_amended :
    ∀ (f : JsFile) (e ne : String) (res : Except String Nat) (c : Nat),
      heicDecodeFlow f (.ok c) res = (.ok c, 0)
      ∧ heicDecodeFlow f (.error e) (.ok c) =
          (if isAvifFile f then (.ok c, 1) else (.error e, 0))
      ∧ heicDecodeFlow (α := Nat) f (.error e) (.error ne) =
          (if isAvifFile f then (.error ne, 1) else (.error e, 0)) := by
  intro f e ne res c
  refine ⟨rfl, ?_, ?_⟩ <;> by_cases h : isAvifFile f <;> simp [heicDecodeFlow, h]

/-- C6: classification decides HEIC first, then AVIF, then TIFF, then the
native raster path, and otherwise reports unsupported; the five concrete
spec examples classify as stated. -/
theorem C6_classification_order :
    (∀ f, isHeicFile f = true → handleFileClassification f = .heic)
    ∧ (∀ f, isHeicFile f = false → isAvifFile f = true →
        handleFileClassification f = .avif)
    ∧ (∀ f, isHeicFile f = false → isAvifFile f = false → isTiffFile f = true →
        handleFileClassification f = .tiff)
    ∧ (∀ f, isHeicFile f = false → isAvifFile f = false → isTiffFile f = false →
        isStandardImageFile f = true → handleFileClassification f = .nativeRaster)
    ∧ (∀ f, isHeicFile f = false → isAvifFile f = false → isTiffFile f = false →
        isStandardImageFile f = false → handleFileClassification f = .unsupported)
    ∧ handleFileClassification ⟨some "photo.heic", none⟩ = .heic
    ∧ handleFileClassification ⟨some "IMG_0001.AVIF", none⟩ = .avif
    ∧ handleFileClassification ⟨some "scan.tiff", none⟩ = .tiff
    ∧ handleFileClassification ⟨some "photo", some "image/png"⟩ = .nativeRaster
    ∧ handleFileClassification ⟨some "notes.txt", none⟩ = .unsupported := by
  refine ⟨?_, ?_, ?_, ?_, ?_, by decide, by decide, by decide, by decide, by decide⟩
  · intro f h
    simp [handleFileClassification, h]
  · intro f h1 h2
    simp [handleFileClassification, h1, h2]
  · intro f h1 h2 h3
    simp [handleFileClassification, h1, h2, h3]
  · intro f h1 h2 h3 h4
    simp [handleFileClassification, h1, h2, h3, h4]
  · intro f h1 h2 h3 h4
    simp [handleFileClassification, h1, h2, h3, h4]

/-- Witness for C6: the guarded decision-order clauses applied to concrete
files. -/
theorem C6_classification_order_witness :
    handleFileClassification ⟨some "a.HEIF", none⟩ = .heic
    ∧ handleFileClassification ⟨some "b.txt", some "image/avif"⟩ = .avif :=
  ⟨C6_classification_order.1 ⟨some "a.HEIF", none⟩ (by decide),
   C6_classification_order.2.1 ⟨some "b.txt", some "image/avif"⟩
     (by decide) (by decide)⟩

lemma b64val_b64chr : ∀ n < 64, b64val (b64chr n) = some n := by decide

lemma b64val_eq_none : b64val '=' = none := by decide

lemma isDotChar_b64chr : ∀ n < 64, isDotChar (b64chr n) = true := by decide

lemma isDotChar_eq_sign : isDotChar '=' = true := by decide

lemma bufferFromBase64_encodeB64 (b : List Nat) (hb : ∀ x ∈ b, x < 256) :
    bufferFromBase64 (encodeB64 b) = b := by
  unfold bufferFromBase64
  induction b using encodeB64.induct with
  | case1 => rfl
  | case2 a =>
    have ha : a < 256 := hb a (by simp)
    rw [encodeB64]
    rw [List.filterMap_cons_some (b64val_b64chr (a / 4) (by omega)),
      List.filterMap_cons_some (b64val_b64chr (a % 4 * 16) (by omega)),
      List.filterMap_cons_none b64val_eq_none, List.filterMap_cons_none b64val_eq_none,
      List.filterMap_nil]
    show [a / 4 * 4 + a % 4 * 16 / 16] = [a]
    have h1 : a / 4 * 4 + a % 4 * 16 / 16 = a := by omega
    rw [h1]
  | case3 a c =>
    have ha : a < 256 := hb a (by simp)
    have hc : c < 256 := hb c (by simp)
    rw [encodeB64]
    rw [List.filterMap_cons_some (b64val_b64chr (a / 4) (by omega)),
      List.filterMap_cons_some (b64val_b64chr (a % 4 * 16 + c / 16) (by omega)),
      List.filterMap_cons_some (b64val_b64chr (c % 16 * 4) (by omega)),
      List.filterMap_cons_none b64val_eq_none, List.filterMap_nil]
    show [a / 4 * 4 + (a % 4 * 16 + c / 16) / 16,
          (a % 4 * 16 + c / 16) % 16 * 16 + c % 16 * 4 / 4] = [a, c]
    have h1 : a / 4 * 4 + (a % 4 * 16 + c / 16) / 16 = a := by omega
    have h2 : (a % 4 * 16 + c / 16) % 16 * 16 + c % 16 * 4 / 4 = c := by omega
    rw [h1, h2]
  | case4 a c d rest ih =>
    have ha : a < 256 := hb a (by simp)
    have hc : c < 256 := hb c (by simp)
    have hd : d < 256 := hb d (by simp)
    have hrest : ∀ x ∈ rest, x < 256 := fun x hx => hb x (by simp [hx])
    rw [encodeB64]
    rw [List.filterMap_cons_some (b64val_b64chr (a / 4) (by omega)),
      List.filterMap_cons_some (b64val_b64chr (a % 4 * 16 + c / 16) (by omega)),
      List.filterMap_cons_some (b64val_b64chr (c % 16 * 4 + d / 64) (by omega)),
      List.filterMap_cons_some (b64val_b64chr (d % 64) (by omega))]
    rw [decodeB64Vals]
    rw [ih hrest]
    have h1 : a / 4 * 4 + (a % 4 * 16 + c / 16) / 16 = a := by omega
    have h2 : (a % 4 * 16 + c / 16) % 16 * 16 + (c % 16 * 4 + d / 64) / 4 = c := by omega
    have h3 : (c % 16 * 4 + d / 64) % 4 * 64 + d % 64 = d := by omega
    rw [h1, h2, h3]

lemma encodeB64_ne_nil (a : Nat) (t : List Nat) : encodeB64 (a :: t) ≠ [] := by
  cases t with
  | nil => simp [encodeB64]
  | cons c t2 =>
    cases t2 with
    | nil => simp [encodeB64]
    | cons d t3 => simp [encodeB64]

lemma encodeB64_all_dot (b : List Nat) (hb : ∀ x ∈ b, x < 256) :
    (encodeB64 b).all isDotChar = true := by
  induction b using encodeB64.induct with
  | case1 => rfl
  | case2 a =>
    have ha : a < 256 := hb a (by simp)
    simp [encodeB64, List.all_cons, isDotChar_b64chr (a / 4) (by omega),
      isDotChar_b64chr (a % 4 * 16) (by omega), isDotChar_eq_sign]
  | case3 a c =>
    have ha : a < 256 := hb a (by simp)
    have hc : c < 256 := hb c (by simp)
    simp [encodeB64, List.all_cons, isDotChar_b64chr (a / 4) (by omega),
      isDotChar_b64chr (a % 4 * 16 + c / 16) (by omega),
      isDotChar_b64chr (c % 16 * 4) (by omega), isDotChar_eq_sign]
  | case4 a c d rest ih =>
    have ha : a < 256 := hb a (by simp)
    have hc : c < 256 := hb c (by simp)
    have hd : d < 256 := hb d (by simp)
    have hrest : ∀ x ∈ rest, x < 256 := fun x hx => hb x (by simp [hx])
    simp [encodeB64, List.all_cons, isDotChar_b64chr (a / 4) (by omega),
      isDotChar_b64chr (a % 4 * 16 + c / 16) (by omega),
      isDotChar_b64chr (c % 16 * 4 + d / 64) (by omega),
      isDotChar_b64chr (d % 64) (by omega), ih hrest]

lemma takeWhile_append_stop {p : Char → Bool} (l1 : List Char) (x : Char)
    (l2 : List Char) (h : ∀ a ∈ l1, p a = true) (hx : p x = false) :
    (l1 ++ x :: l2).takeWhile p = l1 := by
  induction l1 with
  | nil => simp [List.takeWhile_cons, hx]
  | cons a t ih =>
    have ha : p a = true := h a (by simp)
    simp [List.takeWhile_cons, ha, ih (fun a hm => h a (by simp [hm]))]

lemma dropWhile_append_stop {p : Char → Bool} (l1 : List Char) (x : Char)
    (l2 : List Char) (h : ∀ a ∈ l1, p a = true) (hx : p x = false) :
    (l1 ++ x :: l2).dropWhile p = x :: l2 := by
  induction l1 with
  | nil => simp [List.dropWhile_cons, hx]
  | cons a t ih =>
    have ha : p a = true := h a (by simp)
    simp [List.dropWhile_cons, ha, ih (fun a hm => h a (by simp [hm]))]

lemma parseDataUrlList_wellformed (mime payload : List Char)
    (hm : mime ≠ []) (hsemi : ∀ c ∈ mime, (c != ';') = true)
    (hp : payload ≠ []) (hdot : payload.all isDotChar = true) :
    parseDataUrlList
        ('d' :: 'a' :: 't' :: 'a' :: ':'
          :: (mime ++ ';' :: 'b' :: 'a' :: 's' :: 'e' :: '6' :: '4' :: ',' :: payload)) =
      .ok (bufferFromBase64 payload) := by
  have htake := takeWhile_append_stop (p := fun c => c != ';') mime ';'
    ('b' :: 'a' :: 's' :: 'e' :: '6' :: '4' :: ',' :: payload) hsemi (by decide)
  have hdrop := dropWhile_append_stop (p := fun c => c != ';') mime ';'
    ('b' :: 'a' :: 's' :: 'e' :: '6' :: '4' :: ',' :: payload) hsemi (by decide)
  rw [parseDataUrlList]
  rw [htake, hdrop]
  have hmimeEmpty : mime.isEmpty = false := by
    cases mime with
    | nil => exact absurd rfl hm
    | cons a t => rfl
  have hpayEmpty : payload.isEmpty = false := by
    cases payload with
    | nil => exact absurd rfl hp
    | cons a t => rfl
  rw [hmimeEmpty]
  simp only [Bool.false_eq_true, if_false]
  rw [hpayEmpty, hdot]
  simp only [Bool.not_true, Bool.or_false, Bool.false_eq_true, if_false]
  rw [if_neg (by simp [List.length_eq_zero, hp])]

/-- C9 counterexample: a payload of only invalid base64 characters is not
rejected; the regex accepts it and the lenient decode returns an empty
buffer, contradicting the claim that a malformed base64 payload fails. -/
theorem C9_dataUrl_counterexample :
    parseDataUrl "data:image/png;base64,%%%%" = .ok [] := rfl

/-- C9 amended: a data URL built from a non-empty byte list and a non-empty
semicolon-free MIME token parses back to exactly the original bytes;
parsing fails when the scheme is wrong, the MIME group is empty or the
payload is empty, but a malformed non-empty payload is decoded leniently
(invalid characters ignored) rather than rejected. -/
theorem C9_dataUrl_roundtrip :
    (∀ (b : List Nat) (m : String), b ≠ [] → (∀ x ∈ b, x < 256) →
      m ≠ "" → ';' ∉ m.data →
      parseDataUrl (toDataUrl m b) = .ok b)
    ∧ parseDataUrl "nodata" = .error "Invalid data URL format"
    ∧ parseDataUrl "data:;base64,QQ==" = .error "Invalid data URL format"
    ∧ parseDataUrl "data:image/png;base64," = .error "Invalid data URL format" := by
  refine ⟨?_, rfl, rfl, rfl⟩
  intro b m hb hbyte hm hsemi
  have hmd : m.data ≠ [] := by
    intro h
    apply hm
    cases m
    simp only at h
    subst h
    rfl
  unfold parseDataUrl toDataUrl
  rw [String.data_append, String.data_append, String.data_append]
  have hd1 : "data:".data = ['d', 'a', 't', 'a', ':'] := rfl
  have hd2 : ";base64,".data = [';', 'b', 'a', 's', 'e', '6', '4', ','] := rfl
  have hd3 : (String.mk (encodeB64 b)).data = encodeB64 b := rfl
  rw [hd1, hd2, hd3]
  have hshape : (['d', 'a', 't', 'a', ':'] ++ m.data)
        ++ [';', 'b', 'a', 's', 'e', '6', '4', ','] ++ encodeB64 b
      = 'd' :: 'a' :: 't' :: 'a' :: ':'
          :: (m.data ++ ';' :: 'b' :: 'a' :: 's' :: 'e' :: '6' :: '4' :: ','
            :: encodeB64 b) := by
    simp
  rw [hshape]
  have hsemiB : ∀ c ∈ m.data, (c != ';') = true :=
    fun c hc => bne_iff_ne.mpr (fun he => hsemi (he ▸ hc))
  have hpne : encodeB64 b ≠ [] := by
    cases b with
    | nil => exact absurd rfl hb
    | cons a t => exact encodeB64_ne_nil a t
  rw [parseDataUrlList_wellformed m.data (encodeB64 b) hmd hsemiB hpne
    (encodeB64_all_dot b hbyte)]
  rw [bufferFromBase64_encodeB64 b hbyte]

/-- Witness for C9 amended: a concrete three-byte buffer and MIME token
round-trip byte-identically. -/
theorem C9_dataUrl_roundtrip_witness :
    parseDataUrl (toDataUrl "image/png" [137, 80, 78]) = .ok [137, 80, 78] :=
  C9_dataUrl_roundtrip.1 [137, 80, 78] "image/png" (by decide)
    (by decide) (by decide) (by decide)
